import Mathlib

/-!
# Page behaviour controller of `app/static/js/main.js`

A shallow embedding of the DOMContentLoaded handler of `main.js` and of the
event handlers it installs, followed by the properties of these handlers.

The document is a list of elements in tree order.  Handlers that look inside
one element (`this.querySelector`) receive the descendants of that element, in
tree order as well.  A reference to an element is its position in the
document: the handlers never insert or delete an element of the document
itself, so positions are stable.

What the script calls into without defining it is a parameter: the selector
parser behind `querySelector`, the constructor of the tooltip library, and the
HTML parser behind `innerHTML`.
-/

namespace Srassassins

/-! ## DOM model -/

/-- An element of the document, with the attributes and properties the script reads or writes. -/
structure Element where
  /-- Local name of the element, in lower case. -/
  tag : String
  /-- Value of the id attribute; the empty string when the element has no id. -/
  id : String
  /-- Value of the name attribute, when present. -/
  name : Option String
  /-- Value of the href attribute, as getAttribute returns it (none for null). -/
  href : Option String
  /-- Tokens of the classList. -/
  classList : List String
  /-- The checked property. -/
  checked : Bool
  /-- Value of the type attribute, when present. -/
  typeAttr : Option String := none
  /-- Value of the data-bs-toggle attribute, when present. -/
  dataBsToggle : Option String := none
  /-- Whether the element is a form control that is disabled. -/
  disabled : Bool := false
  /-- Whether the element is an HTML element; an SVG or MathML element is not, and has no
  click method. -/
  html : Bool := true
deriving DecidableEq, Repr

/-- A document: its elements in tree order. -/
abbrev Doc := List Element

/-- The exceptions that can end a handler of the script. -/
inductive JSError where
  /-- A method was called on null, or what was called is no function. -/
  | typeError
  /-- A selector text handed to querySelector was not a valid selector. -/
  | syntaxError
  /-- A global variable that was read is not defined. -/
  | referenceError
deriving DecidableEq, Repr

/-- The parts of the browser and of the page around the script that the script calls into
and that are not part of it. -/
structure Browser where
  /-- Whether the selector parser accepts the text; querySelector raises a SyntaxError on a
  text it does not accept. -/
  selectorValid : String → Bool
  /-- The exception that evaluating new bootstrap.Tooltip(el) raises for the element at the
  given position, if any (a ReferenceError when the library is not loaded).  The
  constructor leaves the attributes and properties recorded in Element untouched. -/
  tooltip : Nat → Option JSError

/-- The method classList.add: the token is appended unless already present. -/
def classListAdd (c : String) (l : List String) : List String :=
  if c ∈ l then l else l ++ [c]

/-- The method classList.remove: every occurrence of the token is dropped. -/
def classListRemove (c : String) (l : List String) : List String :=
  l.filter (fun x => x != c)

/-- Effect of el.classList.add(c) on the element. -/
def Element.addClass (c : String) (el : Element) : Element :=
  { el with classList := classListAdd c el.classList }

/-- Effect of el.classList.remove(c) on the element. -/
def Element.removeClass (c : String) (el : Element) : Element :=
  { el with classList := classListRemove c el.classList }

/-- Whether the element matches the class selector .c -/
def Element.hasClass (c : String) (el : Element) : Bool :=
  el.classList.contains c

/-- Position of the first element satisfying p, in tree order. -/
def findIndex (p : Element → Bool) : List Element → Option Nat
  | [] => none
  | el :: rest => if p el then some 0 else (findIndex p rest).map (· + 1)

/-- The call document.getElementById(id): the first element whose id is the given one.
An element without id, or with an empty id attribute, has no ID, so the empty string finds
nothing. -/
def getElementById (doc : Doc) (id : String) : Option Nat :=
  if id = "" then none else findIndex (fun el => el.id == id) doc

/-- The call document.querySelector(.c) for a class selector: the first element that
carries the class. -/
def querySelector (doc : Doc) (c : String) : Option Nat :=
  findIndex (Element.hasClass c) doc

/-- Apply a mutation to the element at position i (nothing happens when there is none). -/
def modifyAt (doc : Doc) (i : Nat) (f : Element → Element) : Doc :=
  match doc[i]? with
  | some el => doc.set i (f el)
  | none => doc

/-- The statement querySelectorAll(.c).forEach(f), for an f that mutates the element it is
given: every element carrying the class is mutated once. -/
def forEachClass (doc : Doc) (c : String) (f : Element → Element) : Doc :=
  doc.map (fun el => if el.hasClass c then f el else el)

/-- The checked property of the element at position i. -/
def checkedAt (doc : Doc) (i : Nat) : Bool :=
  match doc[i]? with
  | some el => el.checked
  | none => false

/-- Whether the element at position i carries the class c. -/
def hasClassAt (doc : Doc) (i : Nat) (c : String) : Bool :=
  match doc[i]? with
  | some el => el.hasClass c
  | none => false

/-! ## Obfuscation toggle (lines 2-22) -/

/-- The element captured as obfuscationToggle. -/
def obfuscationToggle (doc : Doc) : Option Nat :=
  getElementById doc "obfuscation-toggle"

/-- The element captured as secureSection. -/
def secureSection (doc : Doc) : Option Nat :=
  querySelector doc "secure-section"

/-- Start-up part of the toggle block (lines 3-10): when the toggle exists, is unchecked and
the secure section exists, the class blurred is added to the section. -/
def toggleInit (doc : Doc) : Doc :=
  match obfuscationToggle doc with
  | none => doc
  | some t =>
    match secureSection doc with
    | some s => if !(checkedAt doc t) then modifyAt doc s (Element.addClass "blurred") else doc
    | none => doc

/-- The change listener of the toggle (lines 13-21); this is the toggle, sec the captured
secure section. -/
def toggleChange (this : Nat) (sec : Option Nat) (doc : Doc) : Doc :=
  match sec with
  | some s =>
    if checkedAt doc this then modifyAt doc s (Element.removeClass "blurred")
    else modifyAt doc s (Element.addClass "blurred")
  | none => doc

/-- A change event on the toggle: the browser has set the checked property to b, then the
listener runs. -/
def changeEvent (this : Nat) (sec : Option Nat) (doc : Doc) (b : Bool) : Doc :=
  toggleChange this sec (modifyAt doc this (fun el => { el with checked := b }))

/-- A sequence of change events on the toggle, each with the checked value it reports. -/
def changeEvents (this : Nat) (sec : Option Nat) (doc : Doc) (bs : List Bool) : Doc :=
  bs.foldl (changeEvent this sec) doc

/-! ## Admin confirmation (lines 24-34) -/

/-- What a submit event and the window record of a listener run. -/
structure SubmitState where
  /-- The defaultPrevented flag of the event. -/
  defaultPrevented : Bool
  /-- The notices shown with alert, oldest first. -/
  alerts : List String
deriving DecidableEq, Repr

/-- The call this.querySelector(input[name="confirmation"]) on the descendants of the form. -/
def confirmCheckbox (descendants : List Element) : Option Element :=
  descendants.find? (fun el => el.tag == "input" && el.name == some "confirmation")

/-- The text of the blocking notice. -/
def confirmNotice : String := "Please confirm this action by checking the confirmation box."

/-- The submit listener of an admin form (lines 27-33). -/
def submitHandler (descendants : List Element) (st : SubmitState) : SubmitState :=
  match confirmCheckbox descendants with
  | some box =>
    if !box.checked then
      { defaultPrevented := true, alerts := st.alerts ++ [confirmNotice] }
    else st
  | none => st

/-! ## File upload preview (lines 36-91) -/

/-- A selected file: the two attributes the script reads.  The size is a count of bytes. -/
structure File where
  /-- The name attribute. -/
  name : String
  /-- The size attribute, in bytes. -/
  size : Nat
deriving DecidableEq, Repr

/-- A child node of the preview container. -/
structure PreviewNode where
  /-- Local name of the element. -/
  tag : String
  /-- Tokens of the classList. -/
  classList : List String
  /-- The controls property. -/
  controls : Bool
  /-- The file property the script stores on an image. -/
  file : Option File
  /-- The src property; it is written only later, by the onload callback of the reader. -/
  src : Option String
  /-- The markup assigned to innerHTML, kept as the assigned text. -/
  innerHTML : String
deriving DecidableEq, Repr

/-- The call document.createElement(tag): a fresh element. -/
def createElement (tag : String) : PreviewNode :=
  { tag := tag, classList := [], controls := false, file := none, src := none, innerHTML := "" }

/-- The method split of a string, for a separator of one character: the segments between
the occurrences of the separator. -/
def split (sep : Char) : List Char → List (List Char)
  | [] => [[]]
  | c :: cs =>
    if c = sep then [] :: split sep cs
    else
      match split sep cs with
      | [] => [[c]]
      | seg :: segs => (c :: seg) :: segs

/-- The method pop of an array of strings: its last element.  The array that split returns
is never empty. -/
def pop (segments : List (List Char)) : List Char :=
  segments.getLastD []

/-- The method toLowerCase, on the letters A-Z.  JavaScript lower-cases letters outside
ASCII too; of those only the Kelvin sign (to k) and the dotted capital I (to i followed by
a combining dot) give a result with an ASCII letter in it, and neither k nor a combining
dot occurs in the extensions compared below, so the comparisons are not affected. -/
def toLowerCase (s : List Char) : List Char :=
  s.map Char.toLower

/-- The value of fileExt (line 46): file.name.split(.).pop().toLowerCase() -/
def fileExt (name : String) : String :=
  String.mk (toLowerCase (pop (split '.' name.data)))

/-- The extensions previewed as an image (line 48). -/
def imageExts : List String := ["jpg", "jpeg", "png", "gif"]

/-- The extensions previewed as a video (line 62). -/
def videoExts : List String := ["mp4", "mov"]

/-- The method Number.prototype.toFixed(2) at the exact quotient num / den, for a value
below 10^21, where the result has fixed-point form: n is the integer nearest to 100 times
the value, the larger one on a tie; its decimal digits are padded with zeros to three
digits at least and a point is put before the last two.
A file size is an integer Number and the divisor 1024 * 1024 is a power of two, so the
quotient the script computes is exact, and it is far below 10^21 for the sizes a File
reports (an unsigned 64 bit count). -/
def toFixed2 (num den : Nat) : String :=
  let n := (200 * num + den) / (2 * den)
  let m := Nat.toDigits 10 n
  let m := if m.length ≤ 2 then List.replicate (3 - m.length) '0' ++ m else m
  let k := m.length
  String.mk (m.take (k - 2) ++ '.' :: m.drop (k - 2))

/-- The size text of line 84: the size in MB with two decimals, followed by the unit. -/
def sizeText (size : Nat) : String :=
  toFixed2 size (1024 * 1024) ++ " MB"

/-- The markup assigned to fileInfo.innerHTML (lines 81-86). -/
def fileInfoHTML (file : File) : String :=
  "\n                        <small class=\"text-muted\">\n                            <strong>File:</strong> "
    ++ file.name
    ++ "<br>\n                            <strong>Size:</strong> "
    ++ sizeText file.size
    ++ "\n                        </small>\n                    "

/-- The img element of lines 50-52. -/
def imgNode (file : File) : PreviewNode :=
  { createElement "img" with classList := ["img-fluid", "rounded", "mt-2"], file := some file }

/-- The video element of lines 64-66. -/
def videoNode : PreviewNode :=
  { createElement "video" with classList := ["img-fluid", "rounded", "mt-2"], controls := true }

/-- The file-info element of lines 79-86. -/
def fileInfoNode (file : File) : PreviewNode :=
  { createElement "div" with classList := ["mt-2"], innerHTML := fileInfoHTML file }

/-- The assignment previewContainer.innerHTML = "" (line 42): every child is removed. -/
def clearChildren (_children : List PreviewNode) : List PreviewNode :=
  []

/-- The change listener of a file input (lines 41-89).  The argument files is this.files
(none for null); prior is the list of children of the preview container before the event;
the result is the list of its children when the listener returns. -/
def fileChange (files : Option (List File)) (prior : List PreviewNode) : List PreviewNode :=
  let cleared := clearChildren prior
  match files with
  | some (file :: _) =>
    let ext := fileExt file.name
    let withMedia :=
      if imageExts.contains ext then cleared ++ [imgNode file]
      else if videoExts.contains ext then cleared ++ [videoNode]
      else cleared
    withMedia ++ [fileInfoNode file]
  | _ => cleared

/-- Whether the container contains an element with the given local name: one of its
children, or an element that the HTML parser made from the markup assigned to the
innerHTML of a child.  The parser belongs to the browser; markupElements gives the local
names of the elements it creates from a markup text. -/
def containsTag (markupElements : String → List String) (children : List PreviewNode)
    (tag : String) : Bool :=
  children.any (fun node => node.tag == tag || (markupElements node.innerHTML).contains tag)

/-! ## Admin tabs (lines 110-141) -/

/-- Result of one run of a click listener. -/
structure Outcome where
  /-- The document when the listener is left. -/
  doc : Doc
  /-- Whether preventDefault was called on the event. -/
  defaultPrevented : Bool
  /-- The exception that ended the listener, if one was raised. -/
  raised : Option JSError
deriving DecidableEq, Repr

/-- The method substring(1): the string without its first character (its first UTF-16 code
unit, which is the whole first character unless that lies outside the Basic Multilingual
Plane). -/
def substring1 (s : String) : String :=
  s.drop 1

/-- The click listener of a tab link (lines 114-136); this is the link that was clicked, an
element of the document.  The event is cancelled first.  The href attribute is read with
getAttribute and dereferenced at once, which raises a TypeError when the link has none;
nothing of the document has been touched then. -/
def tabClick (doc : Doc) (this : Nat) : Outcome :=
  match (doc[this]?).bind Element.href with
  | none => { doc := doc, defaultPrevented := true, raised := some JSError.typeError }
  | some href =>
    let targetId := substring1 href
    let targetSection := getElementById doc targetId
    let hidden := forEachClass doc "admin-tab-content" (Element.addClass "d-none")
    let shown :=
      match targetSection with
      | some t => modifyAt hidden t (Element.removeClass "d-none")
      | none => hidden
    let cleared := forEachClass shown "admin-tab-link" (Element.removeClass "active")
    { doc := modifyAt cleared this (Element.addClass "active"),
      defaultPrevented := true, raised := none }

/-- What a click on a link with an href makes of the element at position j: the four
statements of the listener (lines 122-135), seen from one element. -/
def clicked (doc : Doc) (this : Nat) (href : String) (j : Nat) (el : Element) : Element :=
  let el1 := if el.hasClass "admin-tab-content" then el.addClass "d-none" else el
  let el2 := if getElementById doc (substring1 href) = some j then el1.removeClass "d-none" else el1
  let el3 := if el2.hasClass "admin-tab-link" then el2.removeClass "active" else el2
  if j = this then el3.addClass "active" else el3

/-- The call document.querySelectorAll(.c): the positions of the elements carrying the
class, in tree order. -/
def querySelectorAll (doc : Doc) (c : String) : List Nat :=
  (List.range doc.length).filter (fun i => hasClassAt doc i c)

/-- The list adminTabs of line 111. -/
def adminTabs (doc : Doc) : List Nat :=
  querySelectorAll doc "admin-tab-link"

/-- State when the DOMContentLoaded handler is left. -/
structure Loaded where
  /-- The document. -/
  doc : Doc
  /-- Exceptions raised inside listeners that start-up ran; the browser reports them and
  goes on, they do not reach the caller of click. -/
  reported : List JSError
  /-- The exception that ended the handler before its last statement, if one was raised. -/
  raised : Option JSError
deriving DecidableEq, Repr

/-- Whether the element matches input[type="file"]; the value of a type attribute is
compared without regard to the case of ASCII letters. -/
def Element.isFileInput (el : Element) : Bool :=
  el.tag == "input" && el.typeAttr.map (fun t => t.data.map Char.toLower) == some "file".data

/-- The selector text built at line 39 from the id of a file input. -/
def previewSelector (input : Element) : String :=
  "#" ++ input.id ++ "-preview"

/-- The file input block of start-up (lines 37-91), as to the exception it can raise: for
each file input in tree order the preview container is looked up with querySelector, which
raises a SyntaxError on the first selector text the parser does not accept.  Otherwise
the block attaches change listeners and leaves the document as it is. -/
def fileInputsInit (env : Browser) (doc : Doc) : Option JSError :=
  doc.findSome? (fun input =>
    if input.isFileInput then
      if env.selectorValid (previewSelector input) then none else some JSError.syntaxError
    else none)

/-- The list tooltipTriggerList of line 105: the positions of the elements whose
data-bs-toggle attribute is tooltip. -/
def tooltipTriggerList (doc : Doc) : List Nat :=
  (List.range doc.length).filter (fun i =>
    match doc[i]? with
    | some el => el.dataBsToggle == some "tooltip"
    | none => false)

/-- The tooltip block of start-up (lines 105-108), as to the exception it can raise: a
tooltip is constructed for each trigger in turn, and the first constructor that raises
ends the block. -/
def tooltipsInit (env : Browser) (doc : Doc) : Option JSError :=
  (tooltipTriggerList doc).findSome? env.tooltip

/-- The tab block of start-up (lines 111-141): with at least one tab link, the listeners
are attached and the click method of the first link is called.  An element that is not an
HTML element has no such method, and the call raises a TypeError; on a disabled form
control the method returns at once; otherwise the click event is dispatched, the listener
of the link runs, and an exception it raises is reported. -/
def tabsInit (doc : Doc) : Loaded :=
  match adminTabs doc with
  | [] => { doc := doc, reported := [], raised := none }
  | first :: _ =>
    match doc[first]? with
    | none => { doc := doc, reported := [], raised := none }
    | some el =>
      if !el.html then { doc := doc, reported := [], raised := some JSError.typeError }
      else if el.disabled then { doc := doc, reported := [], raised := none }
      else
        let out := tabClick doc first
        { doc := out.doc, reported := out.raised.toList, raised := none }

/-- The DOMContentLoaded handler (lines 1-142): the toggle block, the admin form block
(which only attaches listeners), the file input block, the alert block (which only starts
timers), the tooltip block and the tab block, in this order.  An exception raised in a
block ends the handler, and the later blocks do not run. -/
def init (env : Browser) (doc : Doc) : Loaded :=
  let doc1 := toggleInit doc
  match fileInputsInit env doc1 with
  | some err => { doc := doc1, reported := [], raised := some err }
  | none =>
    match tooltipsInit env doc1 with
    | some err => { doc := doc1, reported := [], raised := some err }
    | none => tabsInit doc1

/-- The panes that are visible: the positions of the elements matched by
.admin-tab-content that lack the class d-none. -/
def visiblePanes (doc : Doc) : List Nat :=
  (querySelectorAll doc "admin-tab-content").filter (fun i => !(hasClassAt doc i "d-none"))

/-- The tab links marked active: the positions of the elements matched by .admin-tab-link
that carry the class active. -/
def activeLinks (doc : Doc) : List Nat :=
  (adminTabs doc).filter (fun i => hasClassAt doc i "active")

/-! ## Concrete documents -/

/-- The descendants of an admin form whose confirmation box is checked. -/
def confirmedForm : List Element :=
  [ { tag := "input", id := "", name := some "reason", href := none,
      classList := [], checked := false },
    { tag := "input", id := "", name := some "confirmation", href := none,
      classList := ["form-check-input"], checked := true } ]

/-- A page whose toggle is checked at start-up while the markup of the secure section
already carries the class blurred. -/
def checkedBlurredDoc : Doc :=
  [ { tag := "input", id := "obfuscation-toggle", name := none, href := none,
      classList := [], checked := true },
    { tag := "div", id := "", name := none, href := none,
      classList := ["secure-section", "blurred"], checked := false } ]

/-- A page whose toggle is unchecked at start-up, with a plain secure section. -/
def uncheckedDoc : Doc :=
  [ { tag := "input", id := "obfuscation-toggle", name := none, href := none,
      classList := [], checked := false },
    { tag := "div", id := "", name := none, href := none,
      classList := ["secure-section"], checked := false } ]

/-- A file whose name holds markup. -/
def markupNameFile : File :=
  { name := "<img src=x>.txt", size := 1 }

/-- A browser for the sample pages: the selector parser accepts the ID selectors whose
identifier is written with ASCII letters, digits, hyphens and underscores (and, of the
selectors the script can build, no others are tried on these pages), and the tooltip
library is loaded and constructs every tooltip. -/
def plainBrowser : Browser :=
  { selectorValid := fun s =>
      match s.data with
      | '#' :: '-' :: c :: cs =>
        (c.isAlpha || c == '_' || c == '-') && cs.all (fun x => x.isAlphanum || x == '-' || x == '_')
      | '#' :: c :: cs =>
        (c.isAlpha || c == '_') && cs.all (fun x => x.isAlphanum || x == '-' || x == '_')
      | _ => false,
    tooltip := fun _ => none }

/-- A tab link, as the admin dashboard writes one. -/
def tabLink (href : Option String) (classes : List String) : Element :=
  { tag := "a", id := "", name := none, href := href, classList := classes, checked := false }

/-- A tab pane with the given id. -/
def tabPane (id : String) (classes : List String) : Element :=
  { tag := "div", id := id, name := none, href := none, classList := classes, checked := false }

/-- A dashboard with two tabs, the first one showing. -/
def twoTabsDoc : Doc :=
  [ tabLink (some "#players") ["admin-tab-link", "active"],
    tabLink (some "#games") ["admin-tab-link"],
    tabPane "players" ["admin-tab-content"],
    tabPane "games" ["admin-tab-content", "d-none"] ]

/-- A dashboard whose only tab link points at an id that no element has, next to a pane
that is showing. -/
def missingTargetDoc : Doc :=
  [ tabLink (some "#a") ["admin-tab-link"],
    tabPane "b" ["admin-tab-content"] ]

/-- A dashboard whose first tab link points at an id that no element has. -/
def danglingFirstDoc : Doc :=
  [ tabLink (some "#overview") ["admin-tab-link"],
    tabLink (some "#games") ["admin-tab-link"],
    tabPane "games" ["admin-tab-content"] ]

/-- A dashboard whose second tab link has no href attribute, the first tab being active. -/
def hreflessSecondDoc : Doc :=
  [ tabLink (some "#players") ["admin-tab-link", "active"],
    tabLink none ["admin-tab-link"],
    tabPane "players" ["admin-tab-content"] ]

/-- A dashboard with an upload field, its preview container, a tooltip trigger and two
tabs. -/
def uploadTabsDoc : Doc :=
  [ { tag := "input", id := "avatar", name := some "avatar", href := none, classList := [],
      checked := false, typeAttr := some "file" },
    { tag := "div", id := "avatar-preview", name := none, href := none, classList := [],
      checked := false },
    { tag := "span", id := "", name := none, href := none, classList := [],
      checked := false, dataBsToggle := some "tooltip" },
    tabLink (some "#players") ["admin-tab-link"],
    tabLink (some "#games") ["admin-tab-link"],
    tabPane "players" ["admin-tab-content", "d-none"],
    tabPane "games" ["admin-tab-content"] ]

/-- A dashboard with an upload field whose id starts with a digit. -/
def digitIdDoc : Doc :=
  [ { tag := "input", id := "1up", name := none, href := none, classList := [],
      checked := false, typeAttr := some "file" },
    tabLink (some "#players") ["admin-tab-link"],
    tabPane "players" ["admin-tab-content"] ]

/-- A dashboard whose first tab link is a disabled button. -/
def disabledFirstDoc : Doc :=
  [ { tag := "button", id := "", name := none, href := some "#players",
      classList := ["admin-tab-link"], checked := false, disabled := true },
    tabPane "players" ["admin-tab-content", "d-none"] ]

/-- A dashboard whose first tab link has no href attribute. -/
def hreflessFirstDoc : Doc :=
  [ tabLink none ["admin-tab-link"],
    tabPane "players" ["admin-tab-content"] ]

/-! ## Lemmas on class lists and positions -/

theorem mem_classListAdd (x c : String) (l : List String) :
    x ∈ classListAdd c l ↔ x = c ∨ x ∈ l := by
  unfold classListAdd
  split
  · constructor
    · intro h; exact Or.inr h
    · rintro (h | h)
      · subst h; assumption
      · exact h
  · simp [or_comm]

theorem mem_classListRemove (x c : String) (l : List String) :
    x ∈ classListRemove c l ↔ x ∈ l ∧ x ≠ c := by
  simp [classListRemove]

theorem hasClass_addClass (x c : String) (el : Element) :
    (el.addClass c).hasClass x = (decide (x = c) || el.hasClass x) := by
  simp only [Element.hasClass, Element.addClass]
  rw [Bool.eq_iff_iff]
  simp [mem_classListAdd]

theorem hasClass_removeClass (x c : String) (el : Element) :
    (el.removeClass c).hasClass x = (el.hasClass x && !decide (x = c)) := by
  simp only [Element.hasClass, Element.removeClass]
  rw [Bool.eq_iff_iff]
  simp [mem_classListRemove]

theorem getElem?_modifyAt (doc : Doc) (i j : Nat) (f : Element → Element) :
    (modifyAt doc i f)[j]? = if j = i then (doc[j]?).map f else doc[j]? := by
  unfold modifyAt
  split
  · rename_i el h
    by_cases hji : j = i
    · subst hji
      simp [h]
      have : j < doc.length := by
        rcases Nat.lt_or_ge j doc.length with hl | hl
        · exact hl
        · rw [List.getElem?_eq_none hl] at h; cases h
      simp [List.getElem?_set, this]
    · simp [hji, List.getElem?_set, Ne.symm hji]
  · rename_i h
    by_cases hji : j = i
    · subst hji; simp [h]
    · simp [hji]

theorem length_modifyAt (doc : Doc) (i : Nat) (f : Element → Element) :
    (modifyAt doc i f).length = doc.length := by
  unfold modifyAt
  split <;> simp

theorem getElem?_forEachClass (doc : Doc) (c : String) (f : Element → Element) (j : Nat) :
    (forEachClass doc c f)[j]? = (doc[j]?).map (fun el => if el.hasClass c then f el else el) := by
  simp [forEachClass]

theorem findIndex_some (p : Element → Bool) (doc : Doc) (i : Nat) (h : findIndex p doc = some i) :
    ∃ el, doc[i]? = some el ∧ p el = true := by
  induction doc generalizing i with
  | nil => simp [findIndex] at h
  | cons a rest ih =>
    unfold findIndex at h
    split at h
    · rename_i hp
      cases h
      exact ⟨a, by simp, hp⟩
    · cases hr : findIndex p rest with
      | none => simp [hr] at h
      | some k =>
        simp [hr] at h
        subst h
        obtain ⟨el, h1, h2⟩ := ih k hr
        exact ⟨el, by simpa using h1, h2⟩

theorem checkedAt_modifyAt (doc : Doc) (i j : Nat) (f : Element → Element)
    (hf : ∀ el, (f el).checked = el.checked) :
    checkedAt (modifyAt doc i f) j = checkedAt doc j := by
  unfold checkedAt
  rw [getElem?_modifyAt]
  by_cases hji : j = i
  · simp only [hji, if_true]
    cases doc[i]? <;> simp [hf]
  · simp [hji]

theorem hasClassAt_modifyAt_self (doc : Doc) (i : Nat) (c : String) (f : Element → Element)
    (hi : i < doc.length) :
    hasClassAt (modifyAt doc i f) i c = (f doc[i]).hasClass c := by
  unfold hasClassAt
  rw [getElem?_modifyAt]
  simp [List.getElem?_eq_getElem hi]

theorem modifyAt_modifyAt (doc : Doc) (i : Nat) (f g : Element → Element) :
    modifyAt (modifyAt doc i f) i g = modifyAt doc i (fun el => g (f el)) := by
  apply List.ext_getElem?
  intro j
  simp only [getElem?_modifyAt]
  by_cases hji : j = i
  · simp only [hji, if_true]
    cases doc[i]? <;> rfl
  · simp [hji]

theorem modifyAt_congr (doc : Doc) (i : Nat) (f g : Element → Element) (h : ∀ el, f el = g el) :
    modifyAt doc i f = modifyAt doc i g := by
  have : f = g := funext h
  rw [this]

theorem classListAdd_idem (c : String) (l : List String) :
    classListAdd c (classListAdd c l) = classListAdd c l := by
  have h : c ∈ classListAdd c l := (mem_classListAdd c c l).2 (Or.inl rfl)
  show (if c ∈ classListAdd c l then classListAdd c l else classListAdd c l ++ [c]) = _
  rw [if_pos h]

theorem classListRemove_idem (c : String) (l : List String) :
    classListRemove c (classListRemove c l) = classListRemove c l := by
  simp [classListRemove, List.filter_filter]

theorem toggleChange_idem (this : Nat) (sec : Option Nat) (doc : Doc) :
    toggleChange this sec (toggleChange this sec doc) = toggleChange this sec doc := by
  cases sec with
  | none => rfl
  | some s =>
    simp only [toggleChange]
    cases hc : checkedAt doc this with
    | true =>
      have h1 : checkedAt (modifyAt doc s (Element.removeClass "blurred")) this = true := by
        rw [checkedAt_modifyAt doc s this (Element.removeClass "blurred") (fun _ => rfl)]
        exact hc
      simp only [if_true, h1, modifyAt_modifyAt]
      apply modifyAt_congr
      intro el
      simp [Element.removeClass, classListRemove_idem]
    | false =>
      have h1 : checkedAt (modifyAt doc s (Element.addClass "blurred")) this = false := by
        rw [checkedAt_modifyAt doc s this (Element.addClass "blurred") (fun _ => rfl)]
        exact hc
      simp only [Bool.false_eq_true, if_false, h1, modifyAt_modifyAt]
      apply modifyAt_congr
      intro el
      simp [Element.addClass, classListAdd_idem]

theorem length_toggleChange (this : Nat) (sec : Option Nat) (doc : Doc) :
    (toggleChange this sec doc).length = doc.length := by
  cases sec with
  | none => rfl
  | some s =>
    simp only [toggleChange]
    split <;> simp [length_modifyAt]

theorem length_changeEvent (this : Nat) (sec : Option Nat) (doc : Doc) (b : Bool) :
    (changeEvent this sec doc b).length = doc.length := by
  simp [changeEvent, length_toggleChange, length_modifyAt]

theorem length_changeEvents (this : Nat) (sec : Option Nat) (bs : List Bool) (doc : Doc) :
    (changeEvents this sec doc bs).length = doc.length := by
  induction bs generalizing doc with
  | nil => rfl
  | cons b bs ih =>
    simp only [changeEvents, List.foldl_cons] at ih ⊢
    rw [ih, length_changeEvent]

theorem length_toggleInit (doc : Doc) : (toggleInit doc).length = doc.length := by
  unfold toggleInit
  split
  · rfl
  · split
    · split <;> simp [length_modifyAt]
    · rfl

/-- After the change listener has run, the section carries blurred exactly when the toggle
is unchecked. -/
theorem toggleChange_blurred_iff (this s : Nat) (doc : Doc) (hs : s < doc.length) :
    hasClassAt (toggleChange this (some s) doc) s "blurred" = true ↔
      checkedAt (toggleChange this (some s) doc) this = false := by
  simp only [toggleChange]
  cases hc : checkedAt doc this with
  | true =>
    simp only [if_true]
    rw [checkedAt_modifyAt doc s this (Element.removeClass "blurred") (fun _ => rfl),
      hasClassAt_modifyAt_self _ _ _ _ hs, hasClass_removeClass, hc]
    simp
  | false =>
    simp only [Bool.false_eq_true, if_false]
    rw [checkedAt_modifyAt doc s this (Element.addClass "blurred") (fun _ => rfl),
      hasClassAt_modifyAt_self _ _ _ _ hs, hasClass_addClass, hc]
    simp

theorem changeEvents_append_singleton (this : Nat) (sec : Option Nat) (doc : Doc)
    (bs : List Bool) (b : Bool) :
    changeEvents this sec doc (bs ++ [b]) = changeEvent this sec (changeEvents this sec doc bs) b := by
  simp [changeEvents, List.foldl_append]

theorem confirmCheckbox_eq_none_iff (descendants : List Element) :
    confirmCheckbox descendants = none ↔
      ∀ el ∈ descendants, ¬ (el.tag = "input" ∧ el.name = some "confirmation") := by
  simp [confirmCheckbox]

/-- C1: the submit listener of an admin form cancels the event and shows the notice exactly
when the form holds an input named confirmation (the one querySelector returns) that is
unchecked; otherwise it leaves the event and the window as they were.  Without any input
named confirmation the lookup returns nothing. -/
theorem submitHandler_blocks_iff (descendants : List Element) (st : SubmitState) :
    (((submitHandler descendants st).defaultPrevented = true ∧
        (submitHandler descendants st).alerts = st.alerts ++ [confirmNotice]) ↔
      ∃ box, confirmCheckbox descendants = some box ∧ box.checked = false) ∧
    ((¬ ∃ box, confirmCheckbox descendants = some box ∧ box.checked = false) →
      submitHandler descendants st = st) ∧
    (confirmCheckbox descendants = none ↔
      ∀ el ∈ descendants, ¬ (el.tag = "input" ∧ el.name = some "confirmation")) := by
  refine ⟨?_, ?_, confirmCheckbox_eq_none_iff descendants⟩
  · unfold submitHandler
    cases hq : confirmCheckbox descendants with
    | none => simp
    | some box =>
      cases hc : box.checked <;> simp [hc]
  · intro h
    unfold submitHandler
    cases hq : confirmCheckbox descendants with
    | none => rfl
    | some box =>
      cases hc : box.checked with
      | true => simp [hc]
      | false => exact absurd ⟨box, hq, hc⟩ h

/-- Witness for C1: a form whose confirmation box is checked is submitted untouched. -/
theorem submitHandler_blocks_iff_witness :
    (¬ ∃ box, confirmCheckbox confirmedForm = some box ∧ box.checked = false) ∧
    submitHandler confirmedForm { defaultPrevented := false, alerts := [] } =
      { defaultPrevented := false, alerts := [] } :=
  have hno : ¬ ∃ box, confirmCheckbox confirmedForm = some box ∧ box.checked = false := by
    rintro ⟨box, h1, h2⟩
    have hq : confirmCheckbox confirmedForm = some
        { tag := "input", id := "", name := some "confirmation", href := none,
          classList := ["form-check-input"], checked := true } := by decide
    rw [hq] at h1
    cases h1
    cases h2
  ⟨hno,
    (submitHandler_blocks_iff confirmedForm { defaultPrevented := false, alerts := [] }).2.1
      hno⟩

/-- C2, as stated, fails at start-up: with the toggle checked and a section whose markup
carries blurred, the section is still blurred after initialisation. -/
theorem toggleInit_checked_keeps_blurred :
    obfuscationToggle checkedBlurredDoc = some 0 ∧ secureSection checkedBlurredDoc = some 1 ∧
    ¬ (hasClassAt (toggleInit checkedBlurredDoc) 1 "blurred" = true ↔
        checkedAt (toggleInit checkedBlurredDoc) 0 = false) := by
  decide

/-- C2, amended: with the toggle t and the secure section s present, the section carries
blurred exactly when the toggle is unchecked after every change event, and right after
initialisation when the toggle is unchecked at start-up or the section does not carry
blurred yet; a toggle checked at start-up leaves the document as it is; running the change
listener a second time changes nothing. -/
theorem toggle_blurred_iff_unchecked (doc : Doc) (t s : Nat)
    (ht : obfuscationToggle doc = some t) (hs : secureSection doc = some s) :
    (∀ bs : List Bool,
      (bs ≠ [] ∨ checkedAt doc t = false ∨ hasClassAt doc s "blurred" = false) →
      (hasClassAt (changeEvents t (some s) (toggleInit doc) bs) s "blurred" = true ↔
        checkedAt (changeEvents t (some s) (toggleInit doc) bs) t = false)) ∧
    (checkedAt doc t = true → toggleInit doc = doc) ∧
    (∀ d : Doc, toggleChange t (some s) (toggleChange t (some s) d) =
      toggleChange t (some s) d) := by
  have hslt : s < doc.length := by
    obtain ⟨el, h1, _⟩ := findIndex_some _ _ _ hs
    rcases Nat.lt_or_ge s doc.length with hl | hl
    · exact hl
    · rw [List.getElem?_eq_none hl] at h1; cases h1
  refine ⟨?_, ?_, fun d => toggleChange_idem t (some s) d⟩
  · intro bs hcond
    rcases List.eq_nil_or_concat bs with hnil | ⟨bs0, b, hbs⟩
    · subst hnil
      have hcond2 : checkedAt doc t = false ∨ hasClassAt doc s "blurred" = false := by
        rcases hcond with h | h
        · exact absurd rfl h
        · exact h
      simp only [changeEvents, List.foldl_nil]
      unfold toggleInit
      simp only [ht, hs]
      cases hc : checkedAt doc t with
      | false =>
        simp only [Bool.not_false, if_true]
        rw [checkedAt_modifyAt doc s t (Element.addClass "blurred") (fun _ => rfl),
          hasClassAt_modifyAt_self _ _ _ _ hslt, hasClass_addClass, hc]
        simp
      | true =>
        rcases hcond2 with h | h
        · rw [hc] at h; cases h
        · simp [hc, h]
    · subst hbs
      rw [List.concat_eq_append, changeEvents_append_singleton]
      unfold changeEvent
      apply toggleChange_blurred_iff
      rw [length_modifyAt, length_changeEvents, length_toggleInit]
      exact hslt
  · intro hc
    unfold toggleInit
    simp [ht, hs, hc]

/-- Witness for C2: start-up and two change events on a page with an unchecked toggle. -/
theorem toggle_blurred_iff_unchecked_witness :
    obfuscationToggle uncheckedDoc = some 0 ∧ secureSection uncheckedDoc = some 1 ∧
    (hasClassAt (changeEvents 0 (some 1) (toggleInit uncheckedDoc) [true, false]) 1 "blurred"
        = true ↔
      checkedAt (changeEvents 0 (some 1) (toggleInit uncheckedDoc) [true, false]) 0 = false) :=
  ⟨by decide, by decide,
    (toggle_blurred_iff_unchecked uncheckedDoc 0 1 (by decide) (by decide)).1 [true, false]
      (Or.inl (by decide))⟩

/-! ## File name extension -/

theorem split_ne_nil (sep : Char) (l : List Char) : split sep l ≠ [] := by
  cases l with
  | nil => simp [split]
  | cons c cs =>
    unfold split
    split
    · simp
    · split <;> simp

theorem split_of_not_mem (sep : Char) (l : List Char) (h : sep ∉ l) : split sep l = [l] := by
  induction l with
  | nil => rfl
  | cons c cs ih =>
    have hc : c ≠ sep := fun e => h (by simp [e])
    have hcs : sep ∉ cs := fun e => h (by simp [e])
    unfold split
    rw [if_neg hc, ih hcs]

theorem split_append_sep (sep : Char) (p s : List Char) :
    split sep (p ++ sep :: s) = split sep p ++ split sep s := by
  induction p with
  | nil => simp [split]
  | cons c cs ih =>
    by_cases hc : c = sep
    · simp [split, hc, ih]
    · have h1 : split sep (c :: cs ++ sep :: s) =
          (match split sep (cs ++ sep :: s) with
            | [] => [[c]]
            | seg :: segs => (c :: seg) :: segs) := by
        simp [split, hc]
      have h2 : split sep (c :: cs) =
          (match split sep cs with
            | [] => [[c]]
            | seg :: segs => (c :: seg) :: segs) := by
        simp [split, hc]
      rw [h1, h2, ih]
      cases hcs : split sep cs with
      | nil => exact absurd hcs (split_ne_nil sep cs)
      | cons seg segs => simp

theorem pop_append (a b : List (List Char)) (hb : b ≠ []) : pop (a ++ b) = pop b := by
  unfold pop
  induction a with
  | nil => rfl
  | cons x xs ih =>
    cases hxs : xs ++ b with
    | nil =>
      have : b = [] := by
        cases xs <;> simp_all
      exact absurd this hb
    | cons y ys =>
      rw [List.cons_append, hxs, List.getLastD_cons, ← hxs]
      rw [← ih]
      rw [hxs]
      simp [List.getLastD]

theorem pop_singleton (l : List Char) : pop [l] = l := rfl

theorem toLower_eq_dot (c : Char) : c.toLower = '.' ↔ c = '.' := by
  constructor
  · intro h
    unfold Char.toLower at h
    simp only at h
    split at h
    · rename_i hr
      obtain ⟨h1, h2⟩ := hr
      exfalso
      generalize c.toNat = n at h h1 h2
      have h1 : 65 ≤ n := h1
      have h2 : n ≤ 90 := h2
      interval_cases n <;> revert h <;> decide
    · exact h
  · intro h; subst h; decide

theorem split_map_toLower (l : List Char) :
    split '.' (l.map Char.toLower) = (split '.' l).map (fun seg => seg.map Char.toLower) := by
  induction l with
  | nil => rfl
  | cons c cs ih =>
    by_cases hc : c = '.'
    · subst hc
      have : Char.toLower '.' = '.' := by decide
      simp [split, this, ih]
    · have hc2 : ¬ c.toLower = '.' := fun e => hc ((toLower_eq_dot c).1 e)
      simp only [List.map_cons, split, if_neg hc, if_neg hc2, ih]
      cases hcs : split '.' cs with
      | nil => exact absurd hcs (split_ne_nil '.' cs)
      | cons seg segs => simp

theorem pop_map (f : List Char → List Char) (l : List (List Char)) (hl : l ≠ []) :
    pop (l.map f) = f (pop l) := by
  unfold pop
  induction l with
  | nil => exact absurd rfl hl
  | cons x xs ih =>
    cases xs with
    | nil => rfl
    | cons y ys =>
      have := ih (by simp)
      simpa [List.getLastD] using this

theorem fileExt_eq_pop_split_lower (name : String) :
    fileExt name = String.mk (pop (split '.' (toLowerCase name.data))) := by
  unfold fileExt toLowerCase
  rw [split_map_toLower, pop_map _ _ (split_ne_nil '.' name.data)]

/-- C10: the extension is the lower-cased text after the last dot of the name, and the whole
lower-cased name when the name has no dot; names that agree up to the case of their letters
have the same extension; A.PNG is an image, a.png.txt is neither image nor video, and the
dotless names png and MOV are classified as image and video. -/
theorem fileExt_last_segment :
    (∀ name : String, '.' ∉ name.data → fileExt name = String.mk (toLowerCase name.data)) ∧
    (∀ p s : String, '.' ∉ s.data →
      fileExt (p ++ "." ++ s) = String.mk (toLowerCase s.data)) ∧
    (∀ n1 n2 : String, toLowerCase n1.data = toLowerCase n2.data → fileExt n1 = fileExt n2) ∧
    imageExts.contains (fileExt "A.PNG") = true ∧
    (imageExts.contains (fileExt "a.png.txt") = false ∧
      videoExts.contains (fileExt "a.png.txt") = false) ∧
    imageExts.contains (fileExt "png") = true ∧
    videoExts.contains (fileExt "MOV") = true := by
  refine ⟨?_, ?_, ?_, by decide, by decide, by decide, by decide⟩
  · intro name h
    unfold fileExt
    rw [split_of_not_mem _ _ h, pop_singleton]
  · intro p s h
    unfold fileExt
    have hd : (p ++ "." ++ s).data = p.data ++ '.' :: s.data := by
      simp [String.data_append]
    rw [hd, split_append_sep, pop_append _ _ (split_ne_nil _ _), split_of_not_mem _ _ h,
      pop_singleton]
  · intro n1 n2 h
    rw [fileExt_eq_pop_split_lower, fileExt_eq_pop_split_lower, h]

/-- Witness for C10: the extension of archive.tar.GZ is gz. -/
theorem fileExt_last_segment_witness :
    '.' ∉ "GZ".data ∧ fileExt ("archive.tar" ++ "." ++ "GZ") = String.mk (toLowerCase "GZ".data) :=
  ⟨by decide, fileExt_last_segment.2.1 "archive.tar" "GZ" (by decide)⟩

/-! ## Preview container -/

theorem videoExts_not_image (ext : String) (h : videoExts.contains ext = true) :
    imageExts.contains ext = false := by
  have h2 : ext = "mp4" ∨ ext = "mov" := by simpa [videoExts] using h
  rcases h2 with h2 | h2 <;> subst h2 <;> decide

/-- The children of the preview container when the listener returns, by extension: an img
element and the file-info element, a video element and the file-info element, or the
file-info element alone. -/
theorem fileChange_children_by_extension (file : File) (rest : List File)
    (prior : List PreviewNode) :
    (imageExts.contains (fileExt file.name) = true →
      fileChange (some (file :: rest)) prior = [imgNode file, fileInfoNode file]) ∧
    (videoExts.contains (fileExt file.name) = true →
      fileChange (some (file :: rest)) prior = [videoNode, fileInfoNode file]) ∧
    (imageExts.contains (fileExt file.name) = false →
      videoExts.contains (fileExt file.name) = false →
      fileChange (some (file :: rest)) prior = [fileInfoNode file]) := by
  refine ⟨?_, ?_, ?_⟩
  · intro h
    have h2 : fileExt file.name ∈ imageExts := by simpa using h
    simp [fileChange, clearChildren, h2]
  · intro h
    have h2 : fileExt file.name ∈ videoExts := by simpa using h
    have h3 : fileExt file.name ∉ imageExts := by simpa using videoExts_not_image _ h
    simp [fileChange, clearChildren, h2, h3]
  · intro h1 h2
    have h3 : fileExt file.name ∉ imageExts := by simpa using h1
    have h4 : fileExt file.name ∉ videoExts := by simpa using h2
    simp [fileChange, clearChildren, h3, h4]

/-- C3 at a file named <img src=x>.txt: the extension txt is neither an image nor a video
extension and the listener appends the file-info element alone, but the markup it assigns
to that element holds the name as it stands, an img start tag included; the container
contains an img element exactly when the parser makes one from that markup. -/
theorem fileChange_name_markup_unescaped :
    imageExts.contains (fileExt markupNameFile.name) = false ∧
    videoExts.contains (fileExt markupNameFile.name) = false ∧
    fileChange (some [markupNameFile]) [] = [fileInfoNode markupNameFile] ∧
    (fileInfoNode markupNameFile).innerHTML =
      "\n                        <small class=\"text-muted\">\n                            <strong>File:</strong> <img src=x>.txt<br>\n                            <strong>Size:</strong> 0.00 MB\n                        </small>\n                    " ∧
    ∀ markupElements : String → List String,
      containsTag markupElements (fileChange (some [markupNameFile]) []) "img" =
        (markupElements
          "\n                        <small class=\"text-muted\">\n                            <strong>File:</strong> <img src=x>.txt<br>\n                            <strong>Size:</strong> 0.00 MB\n                        </small>\n                    ").contains "img" := by
  have hm : (fileInfoNode markupNameFile).innerHTML =
      "\n                        <small class=\"text-muted\">\n                            <strong>File:</strong> <img src=x>.txt<br>\n                            <strong>Size:</strong> 0.00 MB\n                        </small>\n                    " := by
    have hs : sizeText 1 = "0.00 MB" := by decide
    show fileInfoHTML markupNameFile = _
    unfold fileInfoHTML
    rw [show markupNameFile.size = 1 from rfl, hs]
    rfl
  have hc : fileChange (some [markupNameFile]) [] = [fileInfoNode markupNameFile] :=
    (fileChange_children_by_extension markupNameFile [] []).2.2 (by decide) (by decide)
  refine ⟨by decide, by decide, hc, hm, ?_⟩
  intro markupElements
  rw [hc, ← hm]
  simp [containsTag, fileInfoNode, createElement]

/-- C9: what the preview container holds when the change listener returns depends on the
selected file alone, whatever it held before: with a file selected, at most one media
element (img or video) followed by the one file-info element; with no file selected,
nothing. -/
theorem fileChange_replaces_content (files : Option (List File)) (prior : List PreviewNode) :
    (∀ other : List PreviewNode, fileChange files prior = fileChange files other) ∧
    (∀ file rest, files = some (file :: rest) →
      ∃ media : List PreviewNode, media.length ≤ 1 ∧
        (∀ m ∈ media, m.tag = "img" ∨ m.tag = "video") ∧
        fileChange files prior = media ++ [fileInfoNode file]) ∧
    ((files = none ∨ files = some []) → fileChange files prior = []) := by
  refine ⟨fun other => rfl, ?_, ?_⟩
  · intro file rest hf
    subst hf
    simp only [fileChange, clearChildren]
    by_cases h1 : fileExt file.name ∈ imageExts
    · exact ⟨[imgNode file], by simp, by simp [imgNode, createElement], by simp [h1]⟩
    · by_cases h2 : fileExt file.name ∈ videoExts
      · exact ⟨[videoNode], by simp, by simp [videoNode, createElement], by simp [h1, h2]⟩
      · exact ⟨[], by simp, by simp, by simp [h1, h2]⟩
  · rintro (h | h) <;> subst h <;> rfl

/-- Witness for C9: with no file selected a stale file-info element is removed. -/
theorem fileChange_replaces_content_witness :
    ((none : Option (List File)) = none ∨ (none : Option (List File)) = some []) ∧
    fileChange none [fileInfoNode { name := "old.txt", size := 7 }] = [] :=
  ⟨Or.inl rfl,
    (fileChange_replaces_content none [fileInfoNode { name := "old.txt", size := 7 }]).2.2
      (Or.inl rfl)⟩

/-! ## Decimal rendering -/

theorem toDigitsCore_acc (f n : Nat) (ds : List Char) :
    Nat.toDigitsCore 10 f n ds = Nat.toDigitsCore 10 f n [] ++ ds := by
  induction f generalizing n ds with
  | zero => simp [Nat.toDigitsCore]
  | succ f ih =>
    simp only [Nat.toDigitsCore]
    split
    · simp
    · rw [ih (n / 10) (Nat.digitChar (n % 10) :: ds), ih (n / 10) [Nat.digitChar (n % 10)]]
      simp

theorem toDigitsCore_fuel (f n : Nat) (ds : List Char) (h : n < f) :
    Nat.toDigitsCore 10 (f + 1) n ds = Nat.toDigitsCore 10 f n ds := by
  induction f generalizing n ds with
  | zero => omega
  | succ f ih =>
    rw [Nat.toDigitsCore]
    conv_rhs => rw [Nat.toDigitsCore]
    split
    · rfl
    · rename_i hn
      exact ih (n / 10) _ (by omega)

theorem toDigitsCore_eq_toDigits (f n : Nat) (h : n < f) :
    Nat.toDigitsCore 10 f n [] = Nat.toDigits 10 n := by
  induction f with
  | zero => omega
  | succ f ih =>
    by_cases hn : n < f
    · rw [toDigitsCore_fuel f n [] hn, ih hn]
    · have : n = f := by omega
      subst this
      rfl

theorem toDigits_lt_ten (n : Nat) (h : n < 10) : Nat.toDigits 10 n = [Nat.digitChar n] := by
  have h1 : n / 10 = 0 := by omega
  have h2 : n % 10 = n := by omega
  simp [Nat.toDigits, Nat.toDigitsCore, h1, h2]

theorem toDigits_step (n : Nat) (h : 10 ≤ n) :
    Nat.toDigits 10 n = Nat.toDigits 10 (n / 10) ++ [Nat.digitChar (n % 10)] := by
  have h1 : n / 10 ≠ 0 := by omega
  have h2 : Nat.toDigits 10 n =
      Nat.toDigitsCore 10 n (n / 10) [Nat.digitChar (n % 10)] := by
    simp [Nat.toDigits, Nat.toDigitsCore, h1]
  rw [h2, toDigitsCore_acc, toDigitsCore_eq_toDigits n (n / 10) (by omega)]

theorem toDigits_length_pos (n : Nat) : 0 < (Nat.toDigits 10 n).length := by
  by_cases h : n < 10
  · simp [toDigits_lt_ten n h]
  · rw [toDigits_step n (by omega)]; simp

/-- The padded digits of toFixed2, split before the last two. -/
theorem fixed_digits (n : Nat) :
    (let m := Nat.toDigits 10 n
     let m := if m.length ≤ 2 then List.replicate (3 - m.length) '0' ++ m else m
     m.take (m.length - 2) ++ '.' :: m.drop (m.length - 2)) =
    Nat.toDigits 10 (n / 100) ++
      '.' :: [Nat.digitChar (n % 100 / 10), Nat.digitChar (n % 10)] := by
  by_cases h1 : n < 10
  · have e1 : n / 100 = 0 := by omega
    have e2 : n % 100 / 10 = 0 := by omega
    have e3 : n % 10 = n := by omega
    simp only [toDigits_lt_ten n h1, e1, e2, e3]
    rfl
  · by_cases h2 : n < 100
    · have e1 : n / 100 = 0 := by omega
      have e2 : n % 100 / 10 = n / 10 := by omega
      have e0 : n / 10 % 10 = n / 10 := by omega
      rw [toDigits_step n (by omega), toDigits_lt_ten (n / 10) (by omega), e1, e2]
      rfl
    · have e2 : n % 100 / 10 = n / 10 % 10 := by omega
      have e3 : n / 10 / 10 = n / 100 := by omega
      rw [toDigits_step n (by omega), toDigits_step (n / 10) (by omega), e2, e3]
      have hp := toDigits_length_pos (n / 100)
      generalize Nat.toDigits 10 (n / 100) = ds at hp
      have hlen : ¬ (ds ++ [Nat.digitChar (n / 10 % 10)] ++ [Nat.digitChar (n % 10)]).length ≤ 2 := by
        simp only [List.length_append, List.length_singleton]; omega
      simp only [hlen, if_false]
      have hk : (ds ++ [Nat.digitChar (n / 10 % 10)] ++ [Nat.digitChar (n % 10)]).length - 2
          = ds.length := by simp
      rw [hk, List.append_assoc, List.take_left, List.drop_left]
      rfl

theorem toString_eq_toDigits (n : Nat) : toString n = String.mk (Nat.toDigits 10 n) := rfl

/-- C4: the size text is the size divided by 1048576, rounded to the nearest hundredth (n is
the integer nearest to 100 * size / 1048576, at most half a unit away), written with
exactly two decimals and followed by the unit MB; 2097152 bytes give 2.00 MB and 1 byte
gives 0.00 MB. -/
theorem sizeText_two_decimals (size : Nat) :
    (1048576 * ((100 * size + 524288) / 1048576) ≤ 100 * size + 524288 ∧
      100 * size < 1048576 * ((100 * size + 524288) / 1048576) + 524288) ∧
    sizeText size =
      toString ((100 * size + 524288) / 1048576 / 100) ++ "." ++
        toString ((100 * size + 524288) / 1048576 % 100 / 10) ++
        toString ((100 * size + 524288) / 1048576 % 10) ++ " MB" ∧
    sizeText 2097152 = "2.00 MB" ∧
    sizeText 1 = "0.00 MB" := by
  refine ⟨by omega, ?_, by decide, by decide⟩
  have hn : (200 * size + 1024 * 1024) / (2 * (1024 * 1024)) = (100 * size + 524288) / 1048576 := by
    omega
  unfold sizeText toFixed2
  simp only [hn]
  generalize (100 * size + 524288) / 1048576 = n
  have hf := fixed_digits n
  simp only at hf
  rw [hf]
  rw [toString_eq_toDigits, toString_eq_toDigits, toString_eq_toDigits,
    toDigits_lt_ten (n % 100 / 10) (by omega), toDigits_lt_ten (n % 10) (by omega)]
  apply String.ext
  simp [String.data_append]

/-! ## Tab switching -/

theorem mem_querySelectorAll (doc : Doc) (c : String) (i : Nat) :
    i ∈ querySelectorAll doc c ↔ hasClassAt doc i c = true := by
  unfold querySelectorAll
  rw [List.mem_filter, List.mem_range]
  constructor
  · exact fun h => h.2
  · intro h
    refine ⟨?_, h⟩
    rcases Nat.lt_or_ge i doc.length with hl | hl
    · exact hl
    · unfold hasClassAt at h
      rw [List.getElem?_eq_none hl] at h
      cases h

theorem querySelectorAll_congr (d1 d2 : Doc) (c : String) (hlen : d1.length = d2.length)
    (h : ∀ i, hasClassAt d1 i c = hasClassAt d2 i c) :
    querySelectorAll d1 c = querySelectorAll d2 c := by
  unfold querySelectorAll
  rw [hlen]
  apply List.filter_congr
  intro i _
  exact h i

theorem nodup_querySelectorAll (doc : Doc) (c : String) : (querySelectorAll doc c).Nodup :=
  (List.nodup_range _).filter _

theorem filter_eq_singleton (l : List Nat) (f : Nat → Bool) (p : Nat) (hl : l.Nodup)
    (hp : p ∈ l) (hf : ∀ x ∈ l, f x = true ↔ x = p) : l.filter f = [p] := by
  induction l with
  | nil => cases hp
  | cons a as ih =>
    rw [List.nodup_cons] at hl
    by_cases ha : a = p
    · subst ha
      have h1 : f a = true := (hf a (by simp)).2 rfl
      have h2 : as.filter f = [] := by
        rw [List.filter_eq_nil_iff]
        intro x hx hfx
        have := (hf x (by simp [hx])).1 hfx
        subst this
        exact hl.1 hx
      simp [List.filter_cons, h1, h2]
    · have h1 : ¬ f a = true := fun e => ha ((hf a (by simp)).1 e)
      have hp2 : p ∈ as := by
        rcases List.mem_cons.1 hp with e | e
        · exact absurd e.symm ha
        · exact e
      simp only [List.filter_cons, h1, if_false]
      exact ih hl.2 hp2 (fun x hx => hf x (by simp [hx]))

theorem filter_length_le_one (l : List Nat) (f : Nat → Bool) (hl : l.Nodup)
    (hf : ∀ x ∈ l, ∀ y ∈ l, f x = true → f y = true → x = y) : (l.filter f).length ≤ 1 := by
  by_cases h : ∃ p ∈ l, f p = true
  · obtain ⟨p, hp, hfp⟩ := h
    rw [filter_eq_singleton l f p hl hp]
    · simp
    · intro x hx
      constructor
      · intro hfx; exact hf x hx p hp hfx hfp
      · intro e; subst e; exact hfp
  · have : l.filter f = [] := by
      rw [List.filter_eq_nil_iff]
      intro x hx hfx
      exact h ⟨x, hx, hfx⟩
    simp [this]

theorem tabClick_of_href (doc : Doc) (this : Nat) (href : String)
    (h : (doc[this]?).bind Element.href = some href) :
    (tabClick doc this).raised = none ∧ (tabClick doc this).defaultPrevented = true ∧
    ∀ j, (tabClick doc this).doc[j]? = (doc[j]?).map (clicked doc this href j) := by
  unfold tabClick
  simp only [h]
  refine ⟨trivial, trivial, ?_⟩
  intro j
  rw [getElem?_modifyAt, getElem?_forEachClass]
  cases ht : getElementById doc (substring1 href) with
  | none =>
    simp only [getElem?_forEachClass]
    cases doc[j]? with
    | none => simp
    | some el =>
      by_cases hj : j = this
      · simp only [clicked, ht, hj, if_true, Option.map_some', reduceCtorEq, if_false]
      · simp only [clicked, ht, hj, Option.map_some', reduceCtorEq, if_false]
  | some t =>
    simp only [getElem?_modifyAt, getElem?_forEachClass]
    cases doc[j]? with
    | none => simp
    | some el =>
      have e : (some t = some j) = (j = t) := by
        simp only [Option.some.injEq]
        exact propext ⟨fun x => x.symm, fun x => x.symm⟩
      by_cases hj : j = this
      · subst hj
        by_cases hjt : j = t
        · subst hjt
          simp only [clicked, ht, if_true, Option.map_some']
        · simp only [clicked, ht, e, hjt, if_true, if_false, Option.map_some']
      · by_cases hjt : j = t
        · subst hjt
          simp only [clicked, ht, hj, if_true, if_false, Option.map_some']
        · simp only [clicked, ht, e, hj, hjt, if_false, Option.map_some']

theorem hasClass_clicked_other (doc : Doc) (this : Nat) (href : String) (j : Nat)
    (el : Element) (c : String) (h1 : c ≠ "d-none") (h2 : c ≠ "active") :
    (clicked doc this href j el).hasClass c = el.hasClass c := by
  unfold clicked
  simp only
  split_ifs <;> simp [hasClass_addClass, hasClass_removeClass, h1, h2]

theorem id_clicked (doc : Doc) (this : Nat) (href : String) (j : Nat) (el : Element) :
    (clicked doc this href j el).id = el.id ∧ (clicked doc this href j el).href = el.href := by
  unfold clicked
  simp only
  split_ifs <;> exact ⟨rfl, rfl⟩

theorem hasClass_clicked_dnone (doc : Doc) (this : Nat) (href : String) (j : Nat)
    (el : Element) (hp : el.hasClass "admin-tab-content" = true) :
    (clicked doc this href j el).hasClass "d-none" = true ↔
      getElementById doc (substring1 href) ≠ some j := by
  unfold clicked
  simp only [hp, if_true]
  split_ifs <;> simp_all [hasClass_addClass, hasClass_removeClass]

theorem hasClass_clicked_active (doc : Doc) (this : Nat) (href : String) (j : Nat)
    (el : Element) (hp : el.hasClass "admin-tab-link" = true) :
    (clicked doc this href j el).hasClass "active" = true ↔ j = this := by
  unfold clicked
  simp only
  split_ifs <;> simp_all [hasClass_addClass, hasClass_removeClass]


theorem hasClassAt_eq_true_iff (doc : Doc) (i : Nat) (c : String) :
    hasClassAt doc i c = true ↔ ∃ el, doc[i]? = some el ∧ el.hasClass c = true := by
  unfold hasClassAt
  cases doc[i]? <;> simp

theorem length_tabClick (doc : Doc) (this : Nat) : (tabClick doc this).doc.length = doc.length := by
  unfold tabClick
  split
  · rfl
  · simp only
    split <;> simp [length_modifyAt, forEachClass]

theorem hasClassAt_tabClick_other (doc : Doc) (this : Nat) (href : String)
    (h : (doc[this]?).bind Element.href = some href) (j : Nat) (c : String)
    (h1 : c ≠ "d-none") (h2 : c ≠ "active") :
    hasClassAt (tabClick doc this).doc j c = hasClassAt doc j c := by
  unfold hasClassAt
  rw [(tabClick_of_href doc this href h).2.2 j]
  cases doc[j]? with
  | none => rfl
  | some el => exact hasClass_clicked_other doc this href j el c h1 h2

theorem querySelectorAll_tabClick (doc : Doc) (this : Nat) (href : String)
    (h : (doc[this]?).bind Element.href = some href) (c : String)
    (h1 : c ≠ "d-none") (h2 : c ≠ "active") :
    querySelectorAll (tabClick doc this).doc c = querySelectorAll doc c :=
  querySelectorAll_congr _ _ c (length_tabClick doc this)
    (fun j => hasClassAt_tabClick_other doc this href h j c h1 h2)

theorem mem_visiblePanes_tabClick (doc : Doc) (this : Nat) (href : String)
    (h : (doc[this]?).bind Element.href = some href) (p : Nat) :
    p ∈ visiblePanes (tabClick doc this).doc ↔
      p ∈ querySelectorAll doc "admin-tab-content" ∧
        getElementById doc (substring1 href) = some p := by
  unfold visiblePanes
  rw [List.mem_filter, querySelectorAll_tabClick doc this href h _ (by decide) (by decide),
    mem_querySelectorAll]
  constructor
  · rintro ⟨hp, hv⟩
    refine ⟨hp, ?_⟩
    obtain ⟨el, hel, hc⟩ := (hasClassAt_eq_true_iff _ _ _).1 hp
    by_contra hne
    have hd : hasClassAt (tabClick doc this).doc p "d-none" = true := by
      rw [hasClassAt_eq_true_iff]
      refine ⟨clicked doc this href p el, ?_, ?_⟩
      · rw [(tabClick_of_href doc this href h).2.2 p, hel]; rfl
      · exact (hasClass_clicked_dnone doc this href p el hc).2 hne
    rw [hd] at hv
    cases hv
  · rintro ⟨hp, ht⟩
    refine ⟨hp, ?_⟩
    obtain ⟨el, hel, hc⟩ := (hasClassAt_eq_true_iff _ _ _).1 hp
    cases hd : hasClassAt (tabClick doc this).doc p "d-none" with
    | false => rfl
    | true =>
      obtain ⟨el2, hel2, hc2⟩ := (hasClassAt_eq_true_iff _ _ _).1 hd
      rw [(tabClick_of_href doc this href h).2.2 p, hel] at hel2
      cases hel2
      exact absurd ht ((hasClass_clicked_dnone doc this href p el hc).1 hc2)

/-- With an href on the clicked link, the links marked active afterwards are the clicked
link alone. -/
theorem activeLinks_tabClick (doc : Doc) (q : Nat) (href : String)
    (hq : q ∈ adminTabs doc) (h : (doc[q]?).bind Element.href = some href) :
    activeLinks (tabClick doc q).doc = [q] := by
  unfold activeLinks adminTabs
  unfold adminTabs at hq
  rw [querySelectorAll_tabClick doc q href h _ (by decide) (by decide)]
  apply filter_eq_singleton _ _ _ (nodup_querySelectorAll _ _) hq
  intro x hx
  obtain ⟨el, hel, hc⟩ := (hasClassAt_eq_true_iff _ _ _).1 ((mem_querySelectorAll _ _ _).1 hx)
  rw [hasClassAt_eq_true_iff]
  constructor
  · rintro ⟨el2, hel2, hc2⟩
    rw [(tabClick_of_href doc q href h).2.2 x, hel] at hel2
    cases hel2
    exact (hasClass_clicked_active doc q href x el hc).1 hc2
  · intro e
    refine ⟨clicked doc q href x el, ?_, (hasClass_clicked_active doc q href x el hc).2 e⟩
    rw [(tabClick_of_href doc q href h).2.2 x, hel]; rfl

theorem visiblePanes_tabClick_length (doc : Doc) (this : Nat) (href : String)
    (h : (doc[this]?).bind Element.href = some href) :
    (visiblePanes (tabClick doc this).doc).length ≤ 1 := by
  have hmem := mem_visiblePanes_tabClick doc this href h
  unfold visiblePanes at hmem ⊢
  apply filter_length_le_one _ _ (nodup_querySelectorAll _ _)
  intro x hx y hy hfx hfy
  have hx2 := (hmem x).1 (List.mem_filter.2 ⟨hx, hfx⟩)
  have hy2 := (hmem y).1 (List.mem_filter.2 ⟨hy, hfy⟩)
  have := hx2.2.symm.trans hy2.2
  exact Option.some.inj this

theorem visiblePanes_tabClick_eq (doc : Doc) (this : Nat) (href : String)
    (h : (doc[this]?).bind Element.href = some href) (p : Nat)
    (hp : p ∈ querySelectorAll doc "admin-tab-content")
    (ht : getElementById doc (substring1 href) = some p) :
    visiblePanes (tabClick doc this).doc = [p] := by
  have hmem := mem_visiblePanes_tabClick doc this href h
  have hlen := visiblePanes_tabClick_length doc this href h
  have hin : p ∈ visiblePanes (tabClick doc this).doc := (hmem p).2 ⟨hp, ht⟩
  generalize visiblePanes (tabClick doc this).doc = l at hlen hin
  match l, hlen, hin with
  | [x], _, hin => rw [List.mem_singleton.1 hin]
  | [], _, hin => cases hin
  | _ :: _ :: _, hlen, _ => simp at hlen

theorem visiblePanes_tabClick_nil (doc : Doc) (this : Nat) (href : String)
    (h : (doc[this]?).bind Element.href = some href)
    (hno : ∀ p, getElementById doc (substring1 href) = some p →
      p ∉ querySelectorAll doc "admin-tab-content") :
    visiblePanes (tabClick doc this).doc = [] := by
  rw [List.eq_nil_iff_forall_not_mem]
  intro p hp
  have := (mem_visiblePanes_tabClick doc this href h p).1 hp
  exact hno p this.2 this.1

/-! ## Start-up -/

theorem findIndex_congr (p : Element → Bool) (d1 d2 : Doc) (h : d1.map p = d2.map p) :
    findIndex p d1 = findIndex p d2 := by
  induction d1 generalizing d2 with
  | nil =>
    cases d2 with
    | nil => rfl
    | cons b bs => simp at h
  | cons a as ih =>
    cases d2 with
    | nil => simp at h
    | cons b bs =>
      simp only [List.map_cons, List.cons.injEq] at h
      simp only [findIndex, h.1, ih bs h.2]

theorem map_modifyAt {β : Type} (doc : Doc) (i : Nat) (f : Element → Element)
    (p : Element → β) (hf : ∀ el, p (f el) = p el) : (modifyAt doc i f).map p = doc.map p := by
  apply List.ext_getElem?
  intro j
  rw [List.getElem?_map, List.getElem?_map, getElem?_modifyAt]
  by_cases hj : j = i
  · simp only [hj, if_true]
    cases doc[i]? <;> simp [hf]
  · simp [hj]

theorem toggleInit_cases (doc : Doc) :
    toggleInit doc = doc ∨ ∃ s, toggleInit doc = modifyAt doc s (Element.addClass "blurred") := by
  unfold toggleInit
  split
  · exact Or.inl rfl
  · split
    · split
      · exact Or.inr ⟨_, rfl⟩
      · exact Or.inl rfl
    · exact Or.inl rfl

theorem getElementById_toggleInit (doc : Doc) (id : String) :
    getElementById (toggleInit doc) id = getElementById doc id := by
  rcases toggleInit_cases doc with h | ⟨s, h⟩
  · rw [h]
  · rw [h]
    unfold getElementById
    split
    · rfl
    · exact findIndex_congr _ _ _ (map_modifyAt _ _ _ _ (fun _ => rfl))

theorem href_toggleInit (doc : Doc) (j : Nat) :
    ((toggleInit doc)[j]?).bind Element.href = (doc[j]?).bind Element.href := by
  rcases toggleInit_cases doc with h | ⟨s, h⟩
  · rw [h]
  · rw [h, getElem?_modifyAt]
    by_cases hj : j = s
    · simp only [hj, if_true]
      cases doc[s]? <;> rfl
    · simp [hj]

theorem hasClassAt_toggleInit (doc : Doc) (j : Nat) (c : String) (hc : c ≠ "blurred") :
    hasClassAt (toggleInit doc) j c = hasClassAt doc j c := by
  rcases toggleInit_cases doc with h | ⟨s, h⟩
  · rw [h]
  · rw [h]
    unfold hasClassAt
    rw [getElem?_modifyAt]
    by_cases hj : j = s
    · simp only [hj, if_true]
      cases doc[s]? with
      | none => rfl
      | some el => simp [hasClass_addClass, hc]
    · simp [hj]

theorem querySelectorAll_toggleInit (doc : Doc) (c : String) (hc : c ≠ "blurred") :
    querySelectorAll (toggleInit doc) c = querySelectorAll doc c :=
  querySelectorAll_congr _ _ c (length_toggleInit doc)
    (fun j => hasClassAt_toggleInit doc j c hc)

theorem getElementById_some (doc : Doc) (id : String) (p : Nat)
    (h : getElementById doc id = some p) : ∃ el, doc[p]? = some el ∧ el.id = id := by
  unfold getElementById at h
  split at h
  · cases h
  · obtain ⟨el, h1, h2⟩ := findIndex_some _ _ _ h
    exact ⟨el, h1, by simpa using h2⟩

/-- C5, as stated, fails when the href of the clicked link names no element: the pane that
was showing is hidden and no pane is visible afterwards. -/
theorem tabClick_missing_target_hides_all :
    0 ∈ adminTabs missingTargetDoc ∧
    (tabClick missingTargetDoc 0).raised = none ∧
    ¬ ∃ p, visiblePanes (tabClick missingTargetDoc 0).doc = [p] := by
  refine ⟨by decide, by decide, ?_⟩
  have h : visiblePanes (tabClick missingTargetDoc 0).doc = [] := by decide
  rw [h]
  simp

/-- C5, amended: after the click listener of a tab link with an href has run, a pane is
visible exactly when it is the element that getElementById finds for the href without its
first character; so at most one pane is visible, it is that element (whose id is that
text) when that element is a pane, and no pane is visible when the id names no pane. -/
theorem tabClick_shows_target_pane (doc : Doc) (q : Nat) (href : String)
    (hhref : (doc[q]?).bind Element.href = some href) :
    (tabClick doc q).raised = none ∧
    querySelectorAll (tabClick doc q).doc "admin-tab-content" =
      querySelectorAll doc "admin-tab-content" ∧
    (∀ p, p ∈ visiblePanes (tabClick doc q).doc ↔
      p ∈ querySelectorAll doc "admin-tab-content" ∧
        getElementById doc (substring1 href) = some p) ∧
    (visiblePanes (tabClick doc q).doc).length ≤ 1 ∧
    (∀ p, p ∈ querySelectorAll doc "admin-tab-content" →
      getElementById doc (substring1 href) = some p →
      visiblePanes (tabClick doc q).doc = [p] ∧
      ∃ el, (tabClick doc q).doc[p]? = some el ∧ el.id = substring1 href) ∧
    ((∀ p, getElementById doc (substring1 href) = some p →
        p ∉ querySelectorAll doc "admin-tab-content") →
      visiblePanes (tabClick doc q).doc = []) := by
  refine ⟨(tabClick_of_href doc q href hhref).1,
    querySelectorAll_tabClick doc q href hhref _ (by decide) (by decide),
    mem_visiblePanes_tabClick doc q href hhref,
    visiblePanes_tabClick_length doc q href hhref, ?_,
    visiblePanes_tabClick_nil doc q href hhref⟩
  intro p hp ht
  refine ⟨visiblePanes_tabClick_eq doc q href hhref p hp ht, ?_⟩
  obtain ⟨el, hel, hid⟩ := getElementById_some doc _ p ht
  refine ⟨clicked doc q href p el, ?_, ?_⟩
  · rw [(tabClick_of_href doc q href hhref).2.2 p, hel]; rfl
  · rw [(id_clicked doc q href p el).1, hid]

/-- Witness for C5: a click on the second tab of a dashboard with two tabs. -/
theorem tabClick_shows_target_pane_witness :
    (twoTabsDoc[1]?).bind Element.href = some "#games" ∧
    visiblePanes (tabClick twoTabsDoc 1).doc = [3] :=
  ⟨by decide,
    ((tabClick_shows_target_pane twoTabsDoc 1 "#games" (by decide)).2.2.2.2.1 3
      (by decide) (by decide)).1⟩

/-- C6 at a tab link without href: the listener raises a TypeError before it touches the
active marks, so the link that was active stays the active one. -/
theorem tabClick_hrefless_keeps_active :
    1 ∈ adminTabs hreflessSecondDoc ∧
    (tabClick hreflessSecondDoc 1).raised = some JSError.typeError ∧
    activeLinks (tabClick hreflessSecondDoc 1).doc = [0] := by
  decide

/-- C8 at a tab link without href: the click listener raises a TypeError, and start-up,
which clicks the first tab link, has this exception reported. -/
theorem tabClick_hrefless_raises :
    adminTabs hreflessFirstDoc = [0] ∧
    (tabClick hreflessFirstDoc 0).raised = some JSError.typeError ∧
    ∀ env : Browser, (init env hreflessFirstDoc).reported = [JSError.typeError] := by
  refine ⟨by decide, by decide, ?_⟩
  intro env
  have h1 : toggleInit hreflessFirstDoc = hreflessFirstDoc := by decide
  have h2 : tabsInit hreflessFirstDoc =
      { doc := hreflessFirstDoc, reported := [JSError.typeError], raised := none } := by
    decide
  have h3 : fileInputsInit env hreflessFirstDoc = none := by
    simp [fileInputsInit, hreflessFirstDoc, tabLink, tabPane, Element.isFileInput]
  have h4 : tooltipsInit env hreflessFirstDoc = none := by
    have : tooltipTriggerList hreflessFirstDoc = [] := by decide
    simp [tooltipsInit, this]
  simp only [init, h1, h3, h4, h2]

theorem findSome?_modifyAt {β : Type} (doc : Doc) (i : Nat) (f : Element → Element)
    (g : Element → Option β) (hf : ∀ el, g (f el) = g el) :
    (modifyAt doc i f).findSome? g = doc.findSome? g := by
  have h1 : ∀ l : Doc, l.findSome? g = (l.map g).findSome? id := by
    intro l
    rw [List.findSome?_map]
    rfl
  rw [h1, h1, map_modifyAt doc i f g hf]

theorem fileInputsInit_toggleInit (env : Browser) (doc : Doc) :
    fileInputsInit env (toggleInit doc) = fileInputsInit env doc := by
  rcases toggleInit_cases doc with h | ⟨s, h⟩
  · rw [h]
  · rw [h]
    unfold fileInputsInit
    exact findSome?_modifyAt _ _ _ _ (fun _ => rfl)

theorem tooltipTriggerList_toggleInit (doc : Doc) :
    tooltipTriggerList (toggleInit doc) = tooltipTriggerList doc := by
  rcases toggleInit_cases doc with h | ⟨s, h⟩
  · rw [h]
  · rw [h]
    unfold tooltipTriggerList
    rw [length_modifyAt]
    apply List.filter_congr
    intro j _
    rw [getElem?_modifyAt]
    by_cases hj : j = s
    · simp only [hj, if_true]
      cases doc[s]? <;> rfl
    · simp [hj]

theorem tooltipsInit_toggleInit (env : Browser) (doc : Doc) :
    tooltipsInit env (toggleInit doc) = tooltipsInit env doc := by
  unfold tooltipsInit
  rw [tooltipTriggerList_toggleInit]

theorem getElem?_toggleInit (doc : Doc) (j : Nat) (el : Element) (h : doc[j]? = some el) :
    ∃ el2, (toggleInit doc)[j]? = some el2 ∧ el2.html = el.html ∧
      el2.disabled = el.disabled ∧ el2.href = el.href := by
  rcases toggleInit_cases doc with h2 | ⟨s, h2⟩
  · rw [h2]
    exact ⟨el, h, rfl, rfl, rfl⟩
  · rw [h2, getElem?_modifyAt]
    by_cases hj : j = s
    · subst hj
      simp only [if_true, h]
      exact ⟨el.addClass "blurred", rfl, rfl, rfl, rfl⟩
    · simp only [hj, if_false]
      exact ⟨el, h, rfl, rfl, rfl⟩

/-- When the blocks before the tab block raise nothing and the first tab link is an HTML
element that is not disabled, start-up ends with the click listener of that link, run on
the document as the toggle block left it. -/
theorem init_eq_of_adminTabs (env : Browser) (doc : Doc) (first : Nat) (rest : List Nat)
    (el : Element)
    (hsel : fileInputsInit env doc = none) (htip : tooltipsInit env doc = none)
    (hN : adminTabs doc = first :: rest) (hel : doc[first]? = some el)
    (hhtml : el.html = true) (hdis : el.disabled = false) :
    init env doc = { doc := (tabClick (toggleInit doc) first).doc,
                     reported := (tabClick (toggleInit doc) first).raised.toList,
                     raised := none } := by
  have h : adminTabs (toggleInit doc) = first :: rest := by
    unfold adminTabs at hN ⊢
    rw [querySelectorAll_toggleInit doc _ (by decide), hN]
  obtain ⟨el2, hel2, h1, h2, _⟩ := getElem?_toggleInit doc first el hel
  unfold init
  simp only [fileInputsInit_toggleInit, hsel, tooltipsInit_toggleInit, htip]
  unfold tabsInit
  simp only [h, hel2, h1, h2, hhtml, hdis]
  rfl

/-- On a page with an upload field whose id makes a selector the parser rejects, start-up
ends at line 39 with a SyntaxError: the tab block does not run and no tab link is marked
active. -/
theorem init_invalid_selector_aborts (env : Browser)
    (h : env.selectorValid "#1up-preview" = false) :
    (init env digitIdDoc).raised = some JSError.syntaxError ∧
    activeLinks (init env digitIdDoc).doc = [] := by
  have h1 : toggleInit digitIdDoc = digitIdDoc := by decide
  have h3 : fileInputsInit env digitIdDoc = some JSError.syntaxError := by
    have hp : previewSelector
        { tag := "input", id := "1up", name := none, href := none, classList := [],
          checked := false, typeAttr := some "file" } = "#1up-preview" := by decide
    have hf : Element.isFileInput
        { tag := "input", id := "1up", name := none, href := none, classList := [],
          checked := false, typeAttr := some "file" } = true := by decide
    simp only [fileInputsInit, digitIdDoc, List.findSome?_cons, hf, hp, h, if_true]
    rfl
  have h4 : activeLinks digitIdDoc = [] := by decide
  simp only [init, h1, h3, h4]
  exact ⟨trivial, trivial⟩

/-- On a page whose first tab link is a disabled button, the click method does nothing:
start-up leaves the document as it was, with no tab link marked active. -/
theorem init_disabled_first_no_click :
    (init plainBrowser disabledFirstDoc).doc = disabledFirstDoc ∧
    (init plainBrowser disabledFirstDoc).raised = none ∧
    activeLinks (init plainBrowser disabledFirstDoc).doc = [] := by
  decide

/-- C7, as stated, fails when the href of the first tab link names no element: after
start-up the pane that was showing is hidden and no pane is visible. -/
theorem init_dangling_first_hides_all :
    adminTabs danglingFirstDoc = [0, 1] ∧
    (init plainBrowser danglingFirstDoc).raised = none ∧
    (init plainBrowser danglingFirstDoc).reported = [] ∧
    ¬ ∃ p, visiblePanes (init plainBrowser danglingFirstDoc).doc = [p] := by
  refine ⟨by decide, by decide, by decide, ?_⟩
  have h : visiblePanes (init plainBrowser danglingFirstDoc).doc = [] := by decide
  rw [h]
  simp

/-- C7, amended: on a document with at least one tab link, when the blocks before the tab
block run through (the parser accepts the selector built from the id of every file input,
and no tooltip constructor raises) and the first tab link is an HTML element, is not a
disabled form control and has an href, start-up ends without an exception, raised or
reported; the state is the result of the click listener of the first tab link, run on the
document as the toggle block left it (the initial document itself on a page without the
toggle); the first tab link is the one link marked active; a pane is visible exactly when
it is the element getElementById finds for the href without its first character, so that
pane is the one visible pane when it exists. -/
theorem init_activates_first_tab (env : Browser) (doc : Doc) (first : Nat) (rest : List Nat)
    (el : Element) (href : String)
    (hsel : ∀ input ∈ doc, input.isFileInput = true →
      env.selectorValid (previewSelector input) = true)
    (htip : ∀ i ∈ tooltipTriggerList doc, env.tooltip i = none)
    (hN : adminTabs doc = first :: rest)
    (hel : doc[first]? = some el)
    (hhtml : el.html = true) (hdis : el.disabled = false)
    (hhref : el.href = some href) :
    (init env doc).raised = none ∧
    (init env doc).reported = [] ∧
    (init env doc).doc = (tabClick (toggleInit doc) first).doc ∧
    (obfuscationToggle doc = none → (init env doc).doc = (tabClick doc first).doc) ∧
    activeLinks (init env doc).doc = [first] ∧
    (∀ p, p ∈ visiblePanes (init env doc).doc ↔
      p ∈ querySelectorAll doc "admin-tab-content" ∧
        getElementById doc (substring1 href) = some p) ∧
    (∀ p, p ∈ querySelectorAll doc "admin-tab-content" →
      getElementById doc (substring1 href) = some p →
      visiblePanes (init env doc).doc = [p]) := by
  have hsel2 : fileInputsInit env doc = none := by
    unfold fileInputsInit
    rw [List.findSome?_eq_none_iff]
    intro input hin
    by_cases hf : input.isFileInput = true
    · simp [hf, hsel input hin hf]
    · simp [hf]
  have htip2 : tooltipsInit env doc = none := by
    unfold tooltipsInit
    rw [List.findSome?_eq_none_iff]
    exact htip
  have hhref0 : (doc[first]?).bind Element.href = some href := by
    rw [hel]; exact hhref
  have hinit := init_eq_of_adminTabs env doc first rest el hsel2 htip2 hN hel hhtml hdis
  have hh : ((toggleInit doc)[first]?).bind Element.href = some href := by
    rw [href_toggleInit, hhref0]
  have hq : first ∈ adminTabs (toggleInit doc) := by
    unfold adminTabs at hN ⊢
    rw [querySelectorAll_toggleInit doc _ (by decide), hN]
    simp
  have hpanes := querySelectorAll_toggleInit doc "admin-tab-content" (by decide)
  have hid := getElementById_toggleInit doc (substring1 href)
  rw [hinit]
  refine ⟨rfl, ?_, rfl, ?_, ?_, ?_, ?_⟩
  · simp only [(tabClick_of_href _ first href hh).1]
    rfl
  · intro hno
    have : toggleInit doc = doc := by
      unfold toggleInit
      rw [hno]
    simp only [this]
  · exact activeLinks_tabClick _ first href hq hh
  · intro p
    simp only
    rw [mem_visiblePanes_tabClick _ first href hh p, hpanes, hid]
  · intro p hp ht
    simp only
    apply visiblePanes_tabClick_eq _ first href hh p
    · rw [hpanes]; exact hp
    · rw [hid]; exact ht

/-- Witness for C7: start-up of a dashboard with an upload field, a tooltip trigger and two
tabs shows the first pane and hides the second. -/
theorem init_activates_first_tab_witness :
    adminTabs uploadTabsDoc = [3, 4] ∧
    tooltipTriggerList uploadTabsDoc = [2] ∧
    plainBrowser.selectorValid "#avatar-preview" = true ∧
    activeLinks (init plainBrowser uploadTabsDoc).doc = [3] ∧
    visiblePanes (init plainBrowser uploadTabsDoc).doc = [5] :=
  have hsel : ∀ input ∈ uploadTabsDoc, input.isFileInput = true →
      plainBrowser.selectorValid (previewSelector input) = true := by decide
  have htip : ∀ i ∈ tooltipTriggerList uploadTabsDoc, plainBrowser.tooltip i = none :=
    fun _ _ => rfl
  ⟨by decide, by decide, by decide,
    (init_activates_first_tab plainBrowser uploadTabsDoc 3 [4] (tabLink (some "#players")
      ["admin-tab-link"]) "#players" hsel htip (by decide) (by decide) rfl rfl rfl).2.2.2.2.1,
    (init_activates_first_tab plainBrowser uploadTabsDoc 3 [4] (tabLink (some "#players")
      ["admin-tab-link"]) "#players" hsel htip (by decide) (by decide) rfl rfl rfl).2.2.2.2.2.2
      5 (by decide) (by decide)⟩

end Srassassins
